import Mathlib

set_option maxRecDepth 400000

/-!
Verification model of the prediction-market unification pipeline
(`tools.py` and `main.py`).

Python floats are modelled as exact rationals.  Character classes of the
regular expressions (`\d`, `\s`) are modelled over their ASCII members.
-/

namespace PM

/-! ## PriceParser: `PredictionMarketScraper._parse_price` (tools.py 216-238) -/

/-- Model of `str.replace('Â¢', '')`: the code strips the two-character sequence
`Â¢` (a mojibake rendering of the cent sign) from the text. -/
def removeCent : List Char → List Char
  | 'Â' :: '¢' :: cs => removeCent cs
  | c :: cs => c :: removeCent cs
  | [] => []

/-- Model of `price_text.replace('$', '').replace('Â¢', '').replace('%', '')`. -/
def strippedChars (s : String) : List Char :=
  (removeCent (s.data.filter (fun c => c ≠ '$'))).filter (fun c => c ≠ '%')

/-- Value of a digit string, most significant first. -/
def digitsToNat (cs : List Char) : Nat :=
  cs.foldl (fun n c => 10 * n + (c.toNat - 48)) 0

/-- First match of the pattern `\d+\.?\d*`: the leftmost maximal digit run,
an optional decimal point, and the following digit run.  Returns the integer
part and the fractional part of the match, or `none` when the text contains
no digit. -/
def firstNumMatch : List Char → Option (List Char × List Char)
  | [] => none
  | c :: cs =>
    if c.isDigit then
      let ip := (c :: cs).takeWhile Char.isDigit
      let r1 := (c :: cs).dropWhile Char.isDigit
      match r1 with
      | '.' :: r2 => some (ip, r2.takeWhile Char.isDigit)
      | _ => some (ip, [])
    else firstNumMatch cs

/-- Value of `float(matches[0])` for a match with integer part `ip` and fractional
part `fp`. -/
def matchValue (ip fp : List Char) : ℚ :=
  (digitsToNat ip : ℚ) + (digitsToNat fp : ℚ) / 10 ^ fp.length

/-- Python `max` on two rationals, kept as a plain conditional. -/
def qmax (a b : ℚ) : ℚ := if a ≤ b then b else a

/-- Python `min` on two rationals. -/
def qmin (a b : ℚ) : ℚ := if a ≤ b then a else b

/-- Embedding of `PredictionMarketScraper._parse_price` (tools.py 216-238).
The blanket exception handler of the code is unreachable here: every step of
the model is total, so the `0.5` default arises exactly when the pattern
finds no digit in the stripped text. -/
def parsePrice (s : String) : ℚ :=
  match firstNumMatch (strippedChars s) with
  | some (ip, fp) =>
    let price := matchValue ip fp
    let price1 := if s.data.contains '%' ∨ 1 < price then price / 100 else price
    qmax (1 / 100) (qmin (99 / 100) price1)
  | none => 1 / 2

/-! ## Data model of `_process_csv_output` (main.py 275-484)

A Python value sitting in a `price`, `average_price` or `confidence_level`
field is either numeric (coercible by `float(...)`) or a value on which
`float(...)` raises. -/

inductive PyNum where
  | num (q : ℚ)
  | bad (s : String)

/-- A member entry of a cluster's `products` list: a bare string, a mapping
(with an optional `name` and an optional `price` field), or any other value,
kept through its `str(...)` form (main.py 376-393). -/
inductive Member where
  | bareStr (s : String)
  | dict (name : Option String) (strForm : String) (price : Option PyNum)
  | other (strForm : String)

/-- The display name of a member: the string itself, `get('name', str(product))`
for a mapping, `str(product)` otherwise. -/
def Member.displayName : Member → String
  | .bareStr s => s
  | .dict name strForm _ => name.getD strForm
  | .other s => s

/-- The individually-parsed price of a member: only a mapping member with a
`price` field that `float(...)` accepts contributes one; a coercion failure
skips the member's price, not the cluster (main.py 386-391). -/
def Member.price? : Member → Option ℚ
  | .dict _ _ (some (.num q)) => some q
  | _ => none

/-- One raw unified-product-group record in mapping form. `none` fields are
absent keys, resolved by the `dict.get` defaults of the code. -/
structure Group where
  unified_name : Option String
  products : List Member
  average_price : Option PyNum
  confidence_level : Option PyNum
  sources : List String

/-- A top-level element of the `unified_products` list: a mapping, or a
non-mapping value which the loop skips (main.py 365-367). -/
inductive Record where
  | group (g : Group)
  | nonDict (s : String)

/-- One row of the report CSV (main.py 428-439). -/
structure Row where
  unified_name : String
  source_products : String
  average_price : ℚ
  price_variance : ℚ
  confidence_level : ℚ
  source_count : ℕ
  sources : String
  category : String
  min_price : ℚ
  max_price : ℚ

/-- Python `round(q, 4)` (half-way cases, which never arise in the claims,
are idealized to round-half-up). -/
def round4 (q : ℚ) : ℚ := ((round (q * 10 ^ 4) : ℤ) : ℚ) / 10 ^ 4

/-- Python `round(q, 2)`. -/
def round2 (q : ℚ) : ℚ := ((round (q * 10 ^ 2) : ℤ) : ℚ) / 10 ^ 2

/-- Value of `round(sqrt(q), 4)` computed exactly for a nonnegative rational `q`:
the code's `pd.Series(prices).std()` immediately followed by `round(., 4)`
is modelled as one exact operation on the sample variance `q`.  For
`q = a / b` the value `round(10^4 * sqrt(a / b))` equals
`(Nat.sqrt (4 * 10^8 * a * b) + b) / (2 * b)` by the floor identities
`2 * sqrt k = sqrt (4 * k)` and `floor ((x + c) / n) = floor ((floor x + c) / n)`. -/
def roundSqrt4 (q : ℚ) : ℚ :=
  (((Nat.sqrt (4 * 10 ^ 8 * q.num.toNat * q.den) + q.den) / (2 * q.den) : ℕ) : ℚ) / 10 ^ 4

/-- Model of `sum(prices) / len(prices)`. -/
def mean (l : List ℚ) : ℚ := l.sum / l.length

/-- Python `min(prices)` of a nonempty list. -/
def listMin : List ℚ → ℚ
  | [] => 0
  | x :: xs => xs.foldl qmin x

/-- Python `max(prices)` of a nonempty list. -/
def listMax : List ℚ → ℚ
  | [] => 0
  | x :: xs => xs.foldl qmax x

/-- The sample variance (`ddof = 1`, as in `pd.Series.std`) of a list of
prices; meaningful for lists of length at least 2. -/
def sampleVar (l : List ℚ) : ℚ :=
  (l.map (fun x => (x - mean l) ^ 2)).sum / ((l.length : ℚ) - 1)

/-- Test `startsWithChars p cs`: `p` is a prefix of `cs`. -/
def startsWithChars : List Char → List Char → Bool
  | [], _ => true
  | _ :: _, [] => false
  | p :: ps, c :: cs => p == c && startsWithChars ps cs

/-- Test `containsChars p cs`: Python `p in cs` substring containment. -/
def containsChars (p : List Char) : List Char → Bool
  | [] => p.isEmpty
  | c :: cs => startsWithChars p (c :: cs) || containsChars p cs

/-- Python `keyword in text` on strings. -/
def containsStr (text keyword : String) : Bool :=
  containsChars keyword.data text.data

def financialKeywords : List String :=
  ["bitcoin", "ethereum", "solana", "crypto", "financial", "market"]

def politicsKeywords : List String :=
  ["election", "presidential", "politics"]

def sportsKeywords : List String :=
  ["world cup", "super bowl", "world series", "uefa", "champions", "f1", "nfl", "sports"]

/-- Category extraction from the unified name (main.py 414-425). -/
def categorize (unifiedName : String) : String :=
  let lower := unifiedName.toLower
  if financialKeywords.any (fun k => containsStr lower k) then "Financial Markets"
  else if politicsKeywords.any (fun k => containsStr lower k) then "Politics"
  else if sportsKeywords.any (fun k => containsStr lower k) then "Sports"
  else if containsStr lower "nobel" then "Awards"
  else "Other"

/-- Value of `float(...)` on an optional field whose absent default is `0`; only
meaningful when the field is not a coercion failure. -/
def numOrZero : Option PyNum → ℚ
  | some (.num q) => q
  | _ => 0

/-- Does `float(...)` (or an order comparison) on this field raise? -/
def isBadNum : Option PyNum → Bool
  | some (.bad _) => true
  | _ => false

/-- The price-statistics policy of main.py 395-409, before display rounding:
average, min, max, and `some v` when the code computes `pd.Series(prices).std()`
of a list with sample variance `v` (the rounded square root is taken in
`processRow`), or `none` when the code sets `price_variance = 0`. -/
def computeStats (prices : List ℚ) (groupAvg : ℚ) : ℚ × ℚ × ℚ × Option ℚ :=
  if prices.isEmpty then
    if 0 < groupAvg then (groupAvg, groupAvg, groupAvg, none)
    else (0, 0, 0, none)
  else
    (mean prices, listMin prices, listMax prices,
      if 1 < prices.length then some (sampleVar prices) else none)

/-- Model of `'; '.join(...)`. -/
def joinSemi (l : List String) : String := String.intercalate "; " l

/-- The individually-parsed member prices of a group (main.py 375-393). -/
def groupPrices (g : Group) : List ℚ := g.products.filterMap Member.price?

/-- The CSV row built for one product group on the exception-free path
(main.py 411-439). -/
def rowOf (g : Group) : Row :=
  let s := computeStats (groupPrices g) (numOrZero g.average_price)
  let uname := g.unified_name.getD "Unknown"
  { unified_name := uname
    source_products := joinSemi (g.products.map Member.displayName)
    average_price := round4 s.1
    price_variance := match s.2.2.2 with | some v => roundSqrt4 v | none => 0
    confidence_level := round2 (numOrZero g.confidence_level)
    source_count := g.products.length
    sources := joinSemi g.sources
    category := categorize uname
    min_price := round4 s.2.1
    max_price := round4 s.2.2.1 }

/-- Building the CSV row of one product group (main.py 369-440).  The two
error cases are the exceptions of the loop body: comparing a non-numeric
`average_price` with `0` (only reached when no member price exists), and
coercing a non-numeric `confidence_level` with `float(...)`; either aborts
the whole batch. -/
def processRow (g : Group) : Except Unit Row :=
  if (groupPrices g).isEmpty && isBadNum g.average_price then Except.error ()
  else if isBadNum g.confidence_level then Except.error ()
  else Except.ok (rowOf g)

/-- The row-building loop over the `unified_products` records: non-mapping
records are skipped, an exception in the body aborts the batch. -/
def buildRows : List Record → Except Unit (List Row)
  | [] => Except.ok []
  | Record.nonDict _ :: rest => buildRows rest
  | Record.group g :: rest => do
    let r ← processRow g
    let rs ← buildRows rest
    pure (r :: rs)

/-- The sort order of `df.sort_values(['confidence_level', 'source_count'],
ascending=[False, False])`: `a` comes no later than `b` when `a`'s confidence
is higher, or equal with `a`'s source count at least `b`'s. -/
def rowLE (a b : Row) : Prop :=
  b.confidence_level < a.confidence_level ∨
    (a.confidence_level = b.confidence_level ∧ b.source_count ≤ a.source_count)

instance : DecidableRel rowLE := fun a b =>
  inferInstanceAs (Decidable (_ ∨ _ ∧ _))

instance : IsTotal Row rowLE where
  total a b := by
    rcases lt_trichotomy a.confidence_level b.confidence_level with h | h | h
    · exact Or.inr (Or.inl h)
    · rcases le_total b.source_count a.source_count with hc | hc
      · exact Or.inl (Or.inr ⟨h, hc⟩)
      · exact Or.inr (Or.inr ⟨h.symm, hc⟩)
    · exact Or.inl (Or.inl h)

instance : IsTrans Row rowLE where
  trans a b c hab hbc := by
    rcases hab with h1 | ⟨h1, h1c⟩ <;> rcases hbc with h2 | ⟨h2, h2c⟩
    · exact Or.inl (h2.trans h1)
    · exact Or.inl (h2 ▸ h1)
    · exact Or.inl (h1 ▸ h2)
    · exact Or.inr ⟨h1.trans h2, h2c.trans h1c⟩

/-- The sorting step; `sort_values` on several columns is a stable
lexicographic sort. -/
def sortRows (rows : List Row) : List Row := List.insertionSort rowLE rows

/-- The single row of `_create_fallback_csv` (main.py 517-535). -/
def fallbackRow : Row :=
  { unified_name := "Error in processing"
    source_products := "N/A"
    average_price := 0
    price_variance := 0
    confidence_level := 0
    source_count := 0
    sources := "N/A"
    category := "Error"
    min_price := 0
    max_price := 0 }

/-- Outcome of `_process_csv_output`: the main report, or the single-row
fallback file. -/
inductive CsvResult where
  | main (rows : List Row)
  | fallback

/-- The rows of the written file. -/
def CsvResult.rows : CsvResult → List Row
  | .main rs => rs
  | .fallback => [fallbackRow]

/-- Model of `_process_csv_output` from the point where the record list is known
(main.py 355-484): empty input, an exception while looping, or an empty row
set all divert to `_create_fallback_csv`; otherwise the rows are sorted and
written. -/
def processCSVOutput (records : List Record) : CsvResult :=
  if records.isEmpty then CsvResult.fallback
  else
    match buildRows records with
    | Except.error _ => CsvResult.fallback
    | Except.ok rows =>
      if rows.isEmpty then CsvResult.fallback else CsvResult.main (sortRows rows)

/-! ## `_extract_products_manually` (main.py 486-515) -/

/-- ASCII members of the regex class `\s`. -/
def isSpaceChar (c : Char) : Bool :=
  c == ' ' || c == '\t' || c == '\n' || c == '\r' || c == '\x0b' || c == '\x0c'

/-- Consume an exact literal, returning the rest of the text. -/
def dropLit : List Char → List Char → Option (List Char)
  | [], cs => some cs
  | _ :: _, [] => none
  | l :: ls, c :: cs => if c == l then dropLit ls cs else none

/-- Try `lit` then `\s*"([^"]*)"` at the current position; on success return
the capture and the text after the match. -/
def quotedStep (lit : List Char) (cs : List Char) : Option (List Char × List Char) :=
  match dropLit lit cs with
  | none => none
  | some r =>
    match r.dropWhile isSpaceChar with
    | '"' :: r2 =>
      let cap := r2.takeWhile (fun c => c ≠ '"')
      match r2.dropWhile (fun c => c ≠ '"') with
      | '"' :: r3 => some (cap, r3)
      | _ => none
    | _ => none

/-- Try `lit` then `\s*([\d.]+)` at the current position. -/
def numStep (lit : List Char) (cs : List Char) : Option (List Char × List Char) :=
  match dropLit lit cs with
  | none => none
  | some r =>
    let r1 := r.dropWhile isSpaceChar
    let cap := r1.takeWhile (fun c => c.isDigit || c == '.')
    if cap.isEmpty then none else some (cap, r1.drop cap.length)

/-- Model of `re.findall`: scan left to right, matching non-overlapping occurrences.
Each successful step consumes at least one character, so a fuel of the text
length is enough. -/
def scanAll (step : List Char → Option (List Char × List Char)) :
    Nat → List Char → List String
  | 0, _ => []
  | _ + 1, [] => []
  | fuel + 1, c :: cs =>
    match step (c :: cs) with
    | some (cap, rem) => String.mk cap :: scanAll step fuel rem
    | none => scanAll step fuel cs

def namePat : List Char := ("\"unified_name\":").data

def pricePat : List Char := ("\"average_price\":").data

def confPat : List Char := ("\"confidence_level\":").data

/-- Model of `re.findall(r'"unified_name":\s*"([^"]*)"', raw)`. -/
def findAllNames (s : String) : List String :=
  scanAll (quotedStep namePat) (s.length + 1) s.data

/-- Model of `re.findall(r'"average_price":\s*([\d.]+)', raw)`. -/
def findAllPrices (s : String) : List String :=
  scanAll (numStep pricePat) (s.length + 1) s.data

/-- Model of `re.findall(r'"confidence_level":\s*([\d.]+)', raw)`. -/
def findAllConfs (s : String) : List String :=
  scanAll (numStep confPat) (s.length + 1) s.data

/-- Value of `float(...)` on a capture of `[\d.]+`: defined exactly when the capture
has at most one point and at least one digit. -/
def floatOfCapture (cs : List Char) : Option ℚ :=
  if cs.count '.' ≤ 1 && cs.any Char.isDigit then
    some (matchValue (cs.takeWhile (fun c => c ≠ '.'))
      ((cs.dropWhile (fun c => c ≠ '.')).drop 1))
  else none

/-- Value of `float(captures[i]) if i < len(captures) else 0` for the head of the
remaining capture list: the default `0` when the list has run out, the
coerced value when `float` accepts the capture, an exception otherwise. -/
def headVal (l : List String) : Except Unit ℚ :=
  match l.head? with
  | none => Except.ok 0
  | some s =>
    match floatOfCapture s.data with
    | some q => Except.ok q
    | none => Except.error ()

/-- The synthetic cluster built for name `n`, price `p`, confidence `c`
(main.py 506-512): the name is its own single member, tagged `"extracted"`. -/
def synthOf (n : String) (p c : ℚ) : Group :=
  { unified_name := some n
    products := [Member.bareStr n]
    average_price := some (PyNum.num p)
    confidence_level := some (PyNum.num c)
    sources := ["extracted"] }

/-- The zipping loop of `_extract_products_manually` (main.py 505-513): one
synthetic group per name, indexing positionally into the price and confidence
captures, with `0` once a list runs out; a `float(...)` failure raises (the
nested matches spell out the exception-propagating sequencing). -/
def synthGroups : List String → List String → List String → Except Unit (List Group)
  | [], _, _ => Except.ok []
  | name :: names, prices, confs =>
    match headVal prices with
    | Except.error e => Except.error e
    | Except.ok p =>
      match headVal confs with
      | Except.error e => Except.error e
      | Except.ok c =>
        match synthGroups names prices.tail confs.tail with
        | Except.error e => Except.error e
        | Except.ok rest => Except.ok (synthOf name p c :: rest)

/-- Model of `_extract_products_manually` as a whole. -/
def extractProductsManually (raw : String) : Except Unit (List Group) :=
  synthGroups (findAllNames raw) (findAllPrices raw) (findAllConfs raw)

/-! ## The driver `run_flow` (main.py 537-577) -/

/-- Completion modes of the external collaborators of one run: whether the
collection task, the analysis task and the CSV-agent task succeed, whether
the flow machinery itself raises out of `kickoff`, and the record list the
CSV stage recovers from the analysis payload. -/
structure FlowEnv where
  collectOk : Bool
  analyzeOk : Bool
  csvAgentOk : Bool
  kickoffRaises : Bool
  records : List Record

/-- The returned artifact path together with the files the run wrote. -/
structure RunResult where
  path : String
  written : List String

def mainCsv : String := "unified_prediction_markets.csv"

def fallbackCsv : String := "unified_prediction_markets_fallback.csv"

def errorCsv : String := "unified_prediction_markets_error.csv"

/-- The file `_process_csv_output` writes. -/
def CsvResult.path : CsvResult → String
  | .main _ => mainCsv
  | .fallback => fallbackCsv

/-- Model of `run_flow`: when `kickoff` raises, the error CSV is written (main.py
560-577); when every stage succeeds, `generate_csv` runs `_process_csv_output`,
which writes the main or the fallback file and returns its path; when a stage
fails, the later stages are skipped with `csv_path = None` and `run_flow`
returns the fallback file name without writing anything (main.py 556-558). -/
def runFlow (env : FlowEnv) : RunResult :=
  if env.kickoffRaises then { path := errorCsv, written := [errorCsv] }
  else if env.collectOk && env.analyzeOk && env.csvAgentOk then
    let res := processCSVOutput env.records
    { path := res.path, written := [res.path] }
  else { path := fallbackCsv, written := [] }

/-! ## Concrete inputs used by the claim witnesses -/

/-- A cluster whose two structured members carry the prices `0.6` and `0.4`. -/
def gTwoPrices : Group :=
  { unified_name := some "Example event"
    products := [Member.dict (some "A") "A" (some (PyNum.num (3 / 5))),
      Member.dict (some "B") "B" (some (PyNum.num (2 / 5)))]
    average_price := none
    confidence_level := some (PyNum.num 80)
    sources := ["s1", "s2"] }

/-- A cluster with one bare-string member and one priced structured member,
listed by a single source site. -/
def gMixed : Group :=
  { unified_name := some "Mixed event"
    products := [Member.bareStr "bare entry",
      Member.dict (some "A") "A" (some (PyNum.num (1 / 2)))]
    average_price := none
    confidence_level := some (PyNum.num 70)
    sources := ["onlysite"] }

/-- A perfectly valid cluster. -/
def gGood : Group :=
  { unified_name := some "Good event"
    products := [Member.bareStr "x"]
    average_price := some (PyNum.num (1 / 2))
    confidence_level := some (PyNum.num 90)
    sources := ["s"] }

/-- A cluster whose `confidence_level` is present but not coercible to a
float. -/
def gBadConf : Group :=
  { unified_name := some "Bad event"
    products := []
    average_price := none
    confidence_level := some (PyNum.bad "high")
    sources := [] }

/-- A cluster with one structured member whose price `65` lies outside
`[0.01, 0.99]`. -/
def gOutOfRange : Group :=
  { unified_name := some "Outlier event"
    products := [Member.dict (some "A") "A" (some (PyNum.num 65))]
    average_price := none
    confidence_level := some (PyNum.num 90)
    sources := ["s"] }

/-- A report row with confidence 90 and source count 1. -/
def r901 : Row :=
  { unified_name := "R901", source_products := "", average_price := 0
    price_variance := 0, confidence_level := 90, source_count := 1
    sources := "", category := "Other", min_price := 0, max_price := 0 }

/-- A report row with confidence 70 and source count 3. -/
def r703 : Row :=
  { unified_name := "R703", source_products := "", average_price := 0
    price_variance := 0, confidence_level := 70, source_count := 3
    sources := "", category := "Other", min_price := 0, max_price := 0 }

/-- A report row with confidence 70 and source count 1. -/
def r701 : Row :=
  { unified_name := "R701", source_products := "", average_price := 0
    price_variance := 0, confidence_level := 70, source_count := 1
    sources := "", category := "Other", min_price := 0, max_price := 0 }

/-- A braceless text on which the three field patterns each match three
times. -/
def rawManual : String :=
  "\"unified_name\": \"A\", \"average_price\": 0.5, \"confidence_level\": 90, " ++
  "\"unified_name\": \"B\", \"average_price\": 0.25, \"confidence_level\": 80, " ++
  "\"unified_name\": \"C\", \"average_price\": 0.75, \"confidence_level\": 70"

/-- The run environment where only the collection stage fails. -/
def envCollectFails : FlowEnv :=
  { collectOk := false
    analyzeOk := true
    csvAgentOk := true
    kickoffRaises := false
    records := [] }

/-- The run environment of a fully successful run with no recovered records. -/
def envAllOk : FlowEnv :=
  { collectOk := true
    analyzeOk := true
    csvAgentOk := true
    kickoffRaises := false
    records := [] }

end PM

/-! ## Helper lemmas -/

theorem PM.le_qmax_left (a b : ℚ) : a ≤ PM.qmax a b := by
  unfold PM.qmax; split <;> simp_all

theorem PM.qmax_le {a b c : ℚ} (h1 : a ≤ c) (h2 : b ≤ c) : PM.qmax a b ≤ c := by
  unfold PM.qmax; split <;> assumption

theorem PM.qmin_le_left (a b : ℚ) : PM.qmin a b ≤ a := by
  unfold PM.qmin; split
  · exact le_rfl
  · exact le_of_not_le (by assumption)

theorem PM.parsePrice_some (s : String) (ip fp : List Char)
    (h : PM.firstNumMatch (PM.strippedChars s) = some (ip, fp)) :
    PM.parsePrice s =
      PM.qmax (1 / 100) (PM.qmin (99 / 100)
        (if s.data.contains '%' ∨ 1 < PM.matchValue ip fp then
          PM.matchValue ip fp / 100 else PM.matchValue ip fp)) := by
  unfold PM.parsePrice
  rw [h]

/-! ## Claim theorems for the price parser -/

/-- C1: for every input string `PriceParser.parse` returns a value inside
`[0.01, 0.99]` (the model of `_parse_price` is a total function, so no
exception escapes), and when the digit pattern finds no match the result is
the default `0.5`. -/
theorem PM.c1_parse_price_bounds (s : String) :
    1 / 100 ≤ PM.parsePrice s ∧ PM.parsePrice s ≤ 99 / 100 ∧
      (PM.firstNumMatch (PM.strippedChars s) = none → PM.parsePrice s = 1 / 2) := by
  unfold PM.parsePrice
  cases h : PM.firstNumMatch (PM.strippedChars s) with
  | none => norm_num
  | some x =>
    obtain ⟨ip, fp⟩ := x
    refine ⟨PM.le_qmax_left _ _,
      PM.qmax_le (by norm_num) ((PM.qmin_le_left _ _).trans (by norm_num)), ?_⟩
    intro hn
    cases hn

/-- Witness for C1 at the concrete inputs `"invalid"` (no digit: default) and
`"-7"` (a negative number). -/
theorem PM.c1_parse_price_bounds_witness :
    PM.parsePrice "invalid" = 1 / 2 ∧ 1 / 100 ≤ PM.parsePrice "-7" :=
  ⟨(PM.c1_parse_price_bounds "invalid").2.2 (by decide),
    (PM.c1_parse_price_bounds "-7").1⟩

/-- C7: the concrete mappings of `PriceParser.parse`: `"$0.65"`, `"65%"` and
`"65¢"` all map to `0.65`, and `"invalid"` maps to the default `0.5`. -/
theorem PM.c7_parse_price_concrete :
    PM.parsePrice "$0.65" = 13 / 20 ∧ PM.parsePrice "65%" = 13 / 20 ∧
      PM.parsePrice "65¢" = 13 / 20 ∧ PM.parsePrice "invalid" = 1 / 2 := by
  have h65 : PM.digitsToNat ['6', '5'] = 65 := by decide
  have h0 : PM.digitsToNat ['0'] = 0 := by decide
  have hm1 : PM.matchValue ['0'] ['6', '5'] = 13 / 20 := by
    unfold PM.matchValue; rw [h0, h65]; norm_num
  have hm2 : PM.matchValue ['6', '5'] [] = 65 := by
    unfold PM.matchValue
    rw [h65]
    show (65 : ℚ) + PM.digitsToNat [] / 10 ^ (0 : ℕ) = 65
    norm_num [PM.digitsToNat]
  refine ⟨?_, ?_, ?_, ?_⟩
  · rw [PM.parsePrice_some "$0.65" ['0'] ['6', '5'] (by decide), hm1]
    have hc : ("$0.65".data.contains '%') = false := by decide
    rw [hc]
    norm_num [PM.qmax, PM.qmin]
  · rw [PM.parsePrice_some "65%" ['6', '5'] [] (by decide), hm2]
    have hc : ("65%".data.contains '%') = true := by decide
    rw [hc]
    norm_num [PM.qmax, PM.qmin]
  · rw [PM.parsePrice_some "65¢" ['6', '5'] [] (by decide), hm2]
    have hc : ("65¢".data.contains '%') = false := by decide
    rw [hc]
    norm_num [PM.qmax, PM.qmin]
  · unfold PM.parsePrice
    have h : PM.firstNumMatch (PM.strippedChars "invalid") = none := by decide
    rw [h]

/-! ## Lemmas about the row-building loop -/

theorem PM.buildRows_all_skipped (records : List PM.Record)
    (h : ∀ r ∈ records, ∀ g, r ≠ PM.Record.group g) :
    PM.buildRows records = Except.ok [] := by
  induction records with
  | nil => rfl
  | cons r rest ih =>
    cases r with
    | group g => exact absurd rfl (h _ (List.mem_cons_self _ _) g)
    | nonDict s =>
      show PM.buildRows rest = Except.ok []
      exact ih fun r hr => h r (List.mem_cons_of_mem _ hr)

theorem PM.processRow_ok_conf (g : PM.Group) (row : PM.Row)
    (h : PM.processRow g = Except.ok row) :
    PM.isBadNum g.confidence_level = false := by
  unfold PM.processRow at h
  split at h
  · cases h
  · split at h
    · cases h
    · simp_all

theorem PM.buildRows_error_of_badConf (records : List PM.Record)
    (h : ∃ g, PM.Record.group g ∈ records ∧ PM.isBadNum g.confidence_level = true) :
    PM.buildRows records = Except.error () := by
  induction records with
  | nil => obtain ⟨g, hg, _⟩ := h; cases hg
  | cons r rest ih =>
    obtain ⟨g, hg, hbad⟩ := h
    cases r with
    | nonDict s =>
      show PM.buildRows rest = Except.error ()
      refine ih ⟨g, ?_, hbad⟩
      rcases List.mem_cons.mp hg with heq | hmem
      · cases heq
      · exact hmem
    | group gh =>
      cases hp : PM.processRow gh with
      | error e =>
        cases e
        simp [PM.buildRows, hp]
        rfl
      | ok row =>
        have hmem : PM.Record.group g ∈ rest := by
          rcases List.mem_cons.mp hg with heq | hmem2
          · exfalso
            have hgg : g = gh := by injection heq
            rw [hgg, PM.processRow_ok_conf gh row hp] at hbad
            cases hbad
          · exact hmem2
        simp [PM.buildRows, hp, ih ⟨g, hmem, hbad⟩]
        rfl

/-! ## Claim theorems about the report builder -/

/-- C2: when the record sequence is empty, or every record is discarded as a
non-mapping, the builder produces the single fallback row whose category is
`"Error"` and whose numeric fields are all `0`, never an empty file. -/
theorem PM.c2_empty_input_fallback (records : List PM.Record)
    (h : ∀ r ∈ records, ∀ g, r ≠ PM.Record.group g) :
    PM.processCSVOutput records = PM.CsvResult.fallback ∧
      (PM.processCSVOutput records).rows = [PM.fallbackRow] ∧
      PM.fallbackRow.category = "Error" ∧ PM.fallbackRow.average_price = 0 ∧
      PM.fallbackRow.price_variance = 0 ∧ PM.fallbackRow.confidence_level = 0 ∧
      PM.fallbackRow.source_count = 0 ∧ PM.fallbackRow.min_price = 0 ∧
      PM.fallbackRow.max_price = 0 := by
  have hmain : PM.processCSVOutput records = PM.CsvResult.fallback := by
    unfold PM.processCSVOutput
    cases records with
    | nil => rfl
    | cons r rest =>
      rw [PM.buildRows_all_skipped _ h]
      rfl
  exact ⟨hmain, by rw [hmain]; rfl, rfl, rfl, rfl, rfl, rfl, rfl, rfl⟩

/-- Witness for C2 at the empty record list. -/
theorem PM.c2_empty_input_fallback_witness :
    PM.processCSVOutput [] = PM.CsvResult.fallback ∧
      (PM.processCSVOutput []).rows = [PM.fallbackRow] ∧
      PM.fallbackRow.category = "Error" := by
  have h := PM.c2_empty_input_fallback [] (by simp)
  exact ⟨h.1, h.2.1, h.2.2.1⟩

/-- C8: the reported `source_count` of a cluster is the number of member
entries of its `products` list (bare-string members included), not the
number of distinct source sites. -/
theorem PM.c8_source_count (g : PM.Group) (row : PM.Row)
    (h : PM.processRow g = Except.ok row) :
    row.source_count = g.products.length := by
  unfold PM.processRow at h
  split at h
  · cases h
  · split at h
    · cases h
    · injection h with h2
      rw [← h2]
      rfl

/-- Witness for C8: a cluster with one bare-string member and one structured
member from a single source site reports `source_count = 2`, not the source
count `1`. -/
theorem PM.c8_source_count_witness :
    (PM.processRow PM.gMixed).toOption.map PM.Row.source_count = some 2 ∧
      PM.gMixed.sources.length = 1 := by
  obtain ⟨row, hrow⟩ : ∃ row, PM.processRow PM.gMixed = Except.ok row := ⟨_, rfl⟩
  have h2 := PM.c8_source_count PM.gMixed row hrow
  rw [hrow]
  refine ⟨?_, rfl⟩
  simp [Except.toOption, h2, PM.gMixed]

/-- C9: one record whose `confidence_level` is present but not float-coercible
collapses the whole report to the single-row fallback: every other cluster of
the batch is discarded. -/
theorem PM.c9_bad_confidence_collapses (records : List PM.Record)
    (h : ∃ g, PM.Record.group g ∈ records ∧ PM.isBadNum g.confidence_level = true) :
    PM.processCSVOutput records = PM.CsvResult.fallback ∧
      (PM.processCSVOutput records).rows = [PM.fallbackRow] := by
  have hb := PM.buildRows_error_of_badConf records h
  have hmain : PM.processCSVOutput records = PM.CsvResult.fallback := by
    unfold PM.processCSVOutput
    obtain ⟨g, hg, _⟩ := h
    cases records with
    | nil => cases hg
    | cons r rest =>
      rw [hb]
      rfl
  exact ⟨hmain, by rw [hmain]; rfl⟩

/-- Witness for C9: a batch holding one valid cluster and one cluster whose
confidence is the string `"high"` yields the fallback file, dropping the
valid cluster. -/
theorem PM.c9_bad_confidence_collapses_witness :
    PM.processCSVOutput [PM.Record.group PM.gGood, PM.Record.group PM.gBadConf] =
      PM.CsvResult.fallback :=
  (PM.c9_bad_confidence_collapses _ ⟨PM.gBadConf, by simp, rfl⟩).1

theorem PM.processRow_ok_row (g : PM.Group) (row : PM.Row)
    (h : PM.processRow g = Except.ok row) : row = PM.rowOf g := by
  unfold PM.processRow at h
  split at h
  · cases h
  · split at h
    · cases h
    · injection h with h2
      exact h2.symm

theorem PM.computeStats_nonempty (prices : List ℚ) (gAvg : ℚ) (h : prices ≠ []) :
    PM.computeStats prices gAvg =
      (PM.mean prices, PM.listMin prices, PM.listMax prices,
        if 1 < prices.length then some (PM.sampleVar prices) else none) := by
  cases prices with
  | nil => exact absurd rfl h
  | cons a as => rfl

/-- C3: per-cluster statistics policy: with at least one member price the
report carries the (display-rounded) mean and extremes of those prices, and
the rounded sample standard deviation (`0` for a single price); with no
member price but a positive group average, that average fills all three price
fields with variance `0`; otherwise all four fields are `0`.  Concretely,
member prices `[0.6, 0.4]` yield average `0.5`, min `0.4`, max `0.6`,
variance `0.1414` and source count `2`. -/
theorem PM.c3_stats_policy :
    (∀ g row, PM.processRow g = Except.ok row →
      (PM.groupPrices g ≠ [] →
        row.average_price = PM.round4 (PM.mean (PM.groupPrices g)) ∧
        row.min_price = PM.round4 (PM.listMin (PM.groupPrices g)) ∧
        row.max_price = PM.round4 (PM.listMax (PM.groupPrices g)) ∧
        row.price_variance =
          (if 1 < (PM.groupPrices g).length then
            PM.roundSqrt4 (PM.sampleVar (PM.groupPrices g)) else 0)) ∧
      (PM.groupPrices g = [] → 0 < PM.numOrZero g.average_price →
        row.average_price = PM.round4 (PM.numOrZero g.average_price) ∧
        row.min_price = PM.round4 (PM.numOrZero g.average_price) ∧
        row.max_price = PM.round4 (PM.numOrZero g.average_price) ∧
        row.price_variance = 0) ∧
      (PM.groupPrices g = [] → ¬ 0 < PM.numOrZero g.average_price →
        row.average_price = PM.round4 0 ∧ row.min_price = PM.round4 0 ∧
        row.max_price = PM.round4 0 ∧ row.price_variance = 0)) ∧
    (PM.processRow PM.gTwoPrices).toOption.map
        (fun r => (r.average_price, r.min_price, r.max_price, r.price_variance,
          r.source_count)) =
      some (1 / 2, 2 / 5, 3 / 5, 1414 / 10000, 2) := by
  constructor
  · intro g row h
    obtain rfl := PM.processRow_ok_row g row h
    refine ⟨?_, ?_, ?_⟩
    · intro hne
      have hcs := PM.computeStats_nonempty (PM.groupPrices g)
        (PM.numOrZero g.average_price) hne
      refine ⟨?_, ?_, ?_, ?_⟩ <;> simp only [PM.rowOf, hcs]
      by_cases hl : 1 < (PM.groupPrices g).length <;> simp [hl]
    · intro hnil hpos
      have hcs : PM.computeStats (PM.groupPrices g) (PM.numOrZero g.average_price) =
          (PM.numOrZero g.average_price, PM.numOrZero g.average_price,
            PM.numOrZero g.average_price, none) := by
        rw [hnil]
        unfold PM.computeStats
        simp [hpos]
      refine ⟨?_, ?_, ?_, ?_⟩ <;> simp only [PM.rowOf, hcs]
    · intro hnil hpos
      have hcs : PM.computeStats (PM.groupPrices g) (PM.numOrZero g.average_price) =
          (0, 0, 0, none) := by
        rw [hnil]
        unfold PM.computeStats
        simp [hpos]
      refine ⟨?_, ?_, ?_, ?_⟩ <;> simp only [PM.rowOf, hcs]
  · have hrun : PM.processRow PM.gTwoPrices = Except.ok (PM.rowOf PM.gTwoPrices) := rfl
    have hpr : PM.groupPrices PM.gTwoPrices = [3 / 5, 2 / 5] := rfl
    rw [hrun]
    simp only [Except.toOption, Option.map_some]
    simp only [PM.rowOf, hpr]
    have hvar : PM.sampleVar [(3 : ℚ) / 5, 2 / 5] = 1 / 50 := by
      norm_num [PM.sampleVar, PM.mean]
    norm_num [PM.computeStats, PM.mean, PM.listMin, PM.listMax, PM.qmin, PM.qmax,
      hvar, PM.round4, PM.roundSqrt4, PM.gTwoPrices]

/-- Witness for C3 at the cluster with member prices `[0.6, 0.4]`. -/
theorem PM.c3_stats_policy_witness :
    (PM.rowOf PM.gTwoPrices).average_price =
      PM.round4 (PM.mean (PM.groupPrices PM.gTwoPrices)) ∧
    (PM.rowOf PM.gTwoPrices).min_price =
      PM.round4 (PM.listMin (PM.groupPrices PM.gTwoPrices)) := by
  have h := (PM.c3_stats_policy.1 PM.gTwoPrices (PM.rowOf PM.gTwoPrices) rfl).1
    (by rw [show PM.groupPrices PM.gTwoPrices = [3 / 5, 2 / 5] from rfl]; simp)
  exact ⟨h.1, h.2.1⟩

theorem PM.pairwise_of_total {α : Type} {R : α → α → Prop}
    (h : ∀ a b, R a b) : ∀ l : List α, l.Pairwise R
  | [] => List.Pairwise.nil
  | a :: l => List.Pairwise.cons (fun b _ => h a b) (PM.pairwise_of_total h l)

theorem PM.pairwise_filter_of {α : Type} {R : α → α → Prop} (p : α → Bool)
    (h : ∀ a b, p a = true → p b = true → R a b) :
    ∀ l : List α, (l.filter p).Pairwise R := by
  intro l
  induction l with
  | nil => exact List.Pairwise.nil
  | cons a l ih =>
    by_cases hpa : p a = true
    · rw [List.filter_cons_of_pos hpa]
      exact List.Pairwise.cons (fun b hb => h a b hpa (List.of_mem_filter hb)) ih
    · rw [List.filter_cons_of_neg hpa]
      exact ih

/-- C4: report rows are ordered by confidence descending with ties broken by
source count descending; the sort is a permutation and is stable (rows that
agree on both keys keep their input order: filtering any fixed key pair
commutes with the sort); the report of `_process_csv_output` is sorted this
way; and the clusters `90/1, 70/3, 70/1` come out in exactly that order. -/
theorem PM.c4_sorting :
    (∀ rows : List PM.Row,
      (PM.sortRows rows).Sorted PM.rowLE ∧ (PM.sortRows rows).Perm rows) ∧
    (∀ (rows : List PM.Row) (conf : ℚ) (cnt : ℕ),
      (PM.sortRows rows).filter
          (fun r => decide (r.confidence_level = conf ∧ r.source_count = cnt)) =
        rows.filter
          (fun r => decide (r.confidence_level = conf ∧ r.source_count = cnt))) ∧
    PM.sortRows [PM.r901, PM.r703, PM.r701] = [PM.r901, PM.r703, PM.r701] ∧
    (∀ records rs, PM.processCSVOutput records = PM.CsvResult.main rs →
      rs.Sorted PM.rowLE) := by
  refine ⟨?_, ?_, ?_, ?_⟩
  · intro rows
    exact ⟨List.sorted_insertionSort PM.rowLE rows,
      List.perm_insertionSort PM.rowLE rows⟩
  · intro rows conf cnt
    set p : PM.Row → Bool :=
      fun r => decide (r.confidence_level = conf ∧ r.source_count = cnt) with hpdef
    have hkeys : ∀ a b : PM.Row, p a = true → p b = true → PM.rowLE a b := by
      intro a b ha hb
      rw [hpdef] at ha hb
      simp only [decide_eq_true_eq] at ha hb
      exact Or.inr ⟨ha.1.trans hb.1.symm, hb.2.le.trans ha.2.ge⟩
    have hpw : (rows.filter p).Pairwise PM.rowLE := PM.pairwise_filter_of p hkeys rows
    have hsub2 : List.Sublist (rows.filter p) (PM.sortRows rows) :=
      List.sublist_insertionSort hpw (List.filter_sublist rows)
    have hself : (rows.filter p).filter p = rows.filter p :=
      List.filter_eq_self.mpr fun a ha => List.of_mem_filter ha
    have hsub3 : List.Sublist (rows.filter p) ((PM.sortRows rows).filter p) := by
      have h5 := hsub2.filter p
      rwa [hself] at h5
    have hlen : ((PM.sortRows rows).filter p).length = (rows.filter p).length :=
      ((List.perm_insertionSort PM.rowLE rows).filter p).length_eq
    exact (hsub3.eq_of_length hlen.symm).symm
  · have h0 : List.orderedInsert PM.rowLE PM.r701 [] = [PM.r701] := rfl
    have hI1 : List.orderedInsert PM.rowLE PM.r703 [PM.r701] = [PM.r703, PM.r701] := by
      unfold List.orderedInsert
      rw [if_pos]
      exact Or.inr ⟨rfl, by decide⟩
    have hI2 : List.orderedInsert PM.rowLE PM.r901 [PM.r703, PM.r701] =
        [PM.r901, PM.r703, PM.r701] := by
      unfold List.orderedInsert
      rw [if_pos]
      exact Or.inl (by norm_num [PM.r901, PM.r703])
    simp only [PM.sortRows, List.insertionSort, h0, hI1, hI2]
  · intro records rs hm
    unfold PM.processCSVOutput at hm
    split at hm
    · cases hm
    · split at hm
      · cases hm
      · split at hm
        · cases hm
        · injection hm with h2
          rw [← h2]
          exact List.sorted_insertionSort PM.rowLE _

/-- Witness for C4: the report built from one valid cluster is sorted. -/
theorem PM.c4_sorting_witness :
    (PM.sortRows [PM.rowOf PM.gGood]).Sorted PM.rowLE :=
  PM.c4_sorting.2.2.2 [PM.Record.group PM.gGood]
    (PM.sortRows [PM.rowOf PM.gGood]) rfl

theorem PM.floatOfCapture_eval (cs ip fp : List Char) (a b : ℕ)
    (hcond : (decide (cs.count '.' ≤ 1) && cs.any Char.isDigit) = true)
    (hip : cs.takeWhile (fun c => c ≠ '.') = ip)
    (hfp : (cs.dropWhile (fun c => c ≠ '.')).drop 1 = fp)
    (ha : PM.digitsToNat ip = a) (hb : PM.digitsToNat fp = b) :
    PM.floatOfCapture cs = some ((a : ℚ) + (b : ℚ) / 10 ^ fp.length) := by
  unfold PM.floatOfCapture
  rw [if_pos hcond, hip, hfp]
  unfold PM.matchValue
  rw [ha, hb]

theorem PM.headVal_cons (s : String) (rest : List String) (q : ℚ)
    (h : PM.floatOfCapture s.data = some q) :
    PM.headVal (s :: rest) = Except.ok q := by
  unfold PM.headVal
  simp only [List.head?_cons, h]

/-- C5: the field-scraping fallback returns one synthetic cluster per
unified-name match, each having the name itself as its single member and
sources `["extracted"]`, with price and confidence zipped positionally and
defaulting to `0` when their capture lists run out; on the braceless text
`rawManual` with three matches per pattern it returns exactly the three
expected synthetic clusters. -/
theorem PM.c5_manual_extraction :
    (∀ names prices confs gs,
      PM.synthGroups names prices confs = Except.ok gs →
      gs.length = names.length ∧
      (∀ g ∈ gs, g.sources = ["extracted"] ∧
        ∃ n, g.unified_name = some n ∧ g.products = [PM.Member.bareStr n]) ∧
      (prices = [] → ∀ g ∈ gs, g.average_price = some (PM.PyNum.num 0)) ∧
      (confs = [] → ∀ g ∈ gs, g.confidence_level = some (PM.PyNum.num 0))) ∧
    PM.rawManual.data.contains '\x7b' = false ∧
    PM.rawManual.data.contains '\x7d' = false ∧
    PM.extractProductsManually PM.rawManual =
      Except.ok [PM.synthOf "A" (1 / 2) 90, PM.synthOf "B" (1 / 4) 80,
        PM.synthOf "C" (3 / 4) 70] := by
  refine ⟨?_, by decide, by decide, ?_⟩
  · intro names
    induction names with
    | nil =>
      intro prices confs gs h
      unfold PM.synthGroups at h
      injection h with h2
      subst h2
      exact ⟨rfl, by simp, by simp, by simp⟩
    | cons name names ih =>
      intro prices confs gs h
      unfold PM.synthGroups at h
      cases hp : PM.headVal prices with
      | error e => rw [hp] at h; cases h
      | ok p =>
        rw [hp] at h
        cases hc : PM.headVal confs with
        | error e => rw [hc] at h; cases h
        | ok c =>
          rw [hc] at h
          cases hr : PM.synthGroups names prices.tail confs.tail with
          | error e => rw [hr] at h; cases h
          | ok rest =>
            rw [hr] at h
            injection h with h2
            subst h2
            obtain ⟨ihl, ihm, ihp2, ihc2⟩ := ih prices.tail confs.tail rest hr
            refine ⟨by simp [ihl], ?_, ?_, ?_⟩
            · intro g hg
              rcases List.mem_cons.mp hg with rfl | hgm
              · exact ⟨rfl, name, rfl, rfl⟩
              · exact ihm g hgm
            · intro hpe g hg
              subst hpe
              rcases List.mem_cons.mp hg with rfl | hgm
              · have hp0 : p = 0 := by
                  rw [show PM.headVal ([] : List String) = Except.ok (0 : ℚ) from rfl] at hp
                  injection hp with h3
                  exact h3.symm
                rw [hp0]
                rfl
              · exact ihp2 rfl g hgm
            · intro hce g hg
              subst hce
              rcases List.mem_cons.mp hg with rfl | hgm
              · have hc0 : c = 0 := by
                  rw [show PM.headVal ([] : List String) = Except.ok (0 : ℚ) from rfl] at hc
                  injection hc with h3
                  exact h3.symm
                rw [hc0]
                rfl
              · exact ihc2 rfl g hgm
  · have hn : PM.findAllNames PM.rawManual = ["A", "B", "C"] := by decide
    have hpl : PM.findAllPrices PM.rawManual = ["0.5", "0.25", "0.75"] := by decide
    have hcl : PM.findAllConfs PM.rawManual = ["90", "80", "70"] := by decide
    have g1 : PM.floatOfCapture ("0.5".data) = some (1 / 2) := by
      rw [PM.floatOfCapture_eval ("0.5".data) ['0'] ['5'] 0 5 (by decide) (by decide)
        (by decide) (by decide) (by decide)]
      norm_num
    have g2 : PM.floatOfCapture ("0.25".data) = some (1 / 4) := by
      rw [PM.floatOfCapture_eval ("0.25".data) ['0'] ['2', '5'] 0 25 (by decide) (by decide)
        (by decide) (by decide) (by decide)]
      norm_num
    have g3 : PM.floatOfCapture ("0.75".data) = some (3 / 4) := by
      rw [PM.floatOfCapture_eval ("0.75".data) ['0'] ['7', '5'] 0 75 (by decide) (by decide)
        (by decide) (by decide) (by decide)]
      norm_num
    have g4 : PM.floatOfCapture ("90".data) = some 90 := by
      rw [PM.floatOfCapture_eval ("90".data) ['9', '0'] [] 90 0 (by decide) (by decide)
        (by decide) (by decide) (by decide)]
      norm_num
    have g5 : PM.floatOfCapture ("80".data) = some 80 := by
      rw [PM.floatOfCapture_eval ("80".data) ['8', '0'] [] 80 0 (by decide) (by decide)
        (by decide) (by decide) (by decide)]
      norm_num
    have g6 : PM.floatOfCapture ("70".data) = some 70 := by
      rw [PM.floatOfCapture_eval ("70".data) ['7', '0'] [] 70 0 (by decide) (by decide)
        (by decide) (by decide) (by decide)]
      norm_num
    have hv1 := PM.headVal_cons "0.5" ["0.25", "0.75"] _ g1
    have hv2 := PM.headVal_cons "0.25" ["0.75"] _ g2
    have hv3 := PM.headVal_cons "0.75" [] _ g3
    have hv4 := PM.headVal_cons "90" ["80", "70"] _ g4
    have hv5 := PM.headVal_cons "80" ["70"] _ g5
    have hv6 := PM.headVal_cons "70" [] _ g6
    unfold PM.extractProductsManually
    rw [hn, hpl, hcl]
    simp only [PM.synthGroups, hv1, hv2, hv3, hv4, hv5, hv6, List.tail_cons]

/-- Witness for C5 at a single name with exhausted price and confidence
capture lists. -/
theorem PM.c5_manual_extraction_witness :
    PM.synthGroups ["A"] [] [] = Except.ok [PM.synthOf "A" 0 0] ∧
      (PM.synthOf "A" 0 0).sources = ["extracted"] := by
  have h := PM.c5_manual_extraction.1 ["A"] [] [] [PM.synthOf "A" 0 0] rfl
  exact ⟨rfl, (h.2.1 _ (by simp)).1⟩

/-- C10: aggregation does not clamp member prices: a structured member price
of `65` propagates unchanged into `average_price`, `min_price` and
`max_price`, so the `[0.01, 0.99]` bounds of the price parser are not an
invariant of the reported statistics. -/
theorem PM.c10_no_clamping :
    (PM.processRow PM.gOutOfRange).toOption.map
        (fun r => (r.average_price, r.min_price, r.max_price)) =
      some (65, 65, 65) ∧ ¬ (65 : ℚ) ≤ 99 / 100 := by
  constructor
  · have h : PM.processRow PM.gOutOfRange = Except.ok (PM.rowOf PM.gOutOfRange) := rfl
    have hp : PM.groupPrices PM.gOutOfRange = [65] := rfl
    rw [h]
    simp only [Except.toOption, Option.map_some]
    simp [PM.rowOf, PM.computeStats, hp, PM.mean, PM.listMin, PM.listMax, PM.round4]
    norm_num
  · norm_num

/-- Counterexample to C6: when the collection stage fails (and the flow
machinery itself does not raise), `run_flow` returns the fallback CSV path
without having written any file at all — the pipeline can exit without
writing an output artifact. -/
theorem PM.c6_counterexample :
    (PM.runFlow PM.envCollectFails).path = PM.fallbackCsv ∧
      (PM.runFlow PM.envCollectFails).written = [] :=
  ⟨rfl, rfl⟩

/-- C6 (amended): the pipeline always terminates returning one of the three
CSV paths; the returned file is actually written when the flow raises (error
CSV) or when all stages succeed (main or fallback CSV of the report builder),
but when collection or analysis fails and the later stages are skipped it
returns the fallback path without writing any file. -/
theorem PM.c6_artifact_paths (env : PM.FlowEnv) :
    ((PM.runFlow env).path = PM.mainCsv ∨ (PM.runFlow env).path = PM.fallbackCsv ∨
      (PM.runFlow env).path = PM.errorCsv) ∧
    (env.kickoffRaises = true →
      (PM.runFlow env).written = [PM.errorCsv] ∧
        (PM.runFlow env).path = PM.errorCsv) ∧
    (env.kickoffRaises = false →
      (env.collectOk && env.analyzeOk && env.csvAgentOk) = true →
      (PM.runFlow env).written = [(PM.runFlow env).path]) ∧
    (env.kickoffRaises = false →
      (env.collectOk && env.analyzeOk && env.csvAgentOk) = false →
      (PM.runFlow env).written = [] ∧ (PM.runFlow env).path = PM.fallbackCsv) := by
  cases hk : env.kickoffRaises with
  | true => simp [PM.runFlow, hk]
  | false =>
    cases hs : env.collectOk && env.analyzeOk && env.csvAgentOk with
    | true =>
      cases hres : PM.processCSVOutput env.records with
      | main rs => simp [PM.runFlow, hk, hs, hres, PM.CsvResult.path]
      | fallback => simp [PM.runFlow, hk, hs, hres, PM.CsvResult.path]
    | false => simp [PM.runFlow, hk, hs]

/-- Witness for the amended C6 on a fully successful run. -/
theorem PM.c6_artifact_paths_witness :
    (PM.runFlow PM.envAllOk).written = [(PM.runFlow PM.envAllOk).path] :=
  (PM.c6_artifact_paths PM.envAllOk).2.2.1 rfl rfl
